import Mathlib

/-!
Verification of the knowledge-ingestion and entity-memory core of the
`worksyncal/Crew` repository.

The development shallowly embeds the two source files the claims point at:

* `src/crewai/knowledge/source/text_file_knowledge_source.py`
  (`TextFileKnowledgeSource._chunk_text`, `TextFileKnowledgeSource.add`), and
* `src/crewai/memory/entity/entity_memory.py`
  (`EntityMemory.__init__`, `EntityMemory.save`, `EntityMemory.reset`).

Python strings are embedded as `List Char` where index arithmetic matters and
as `String` where only concatenation matters; Python exceptions are embedded
as an explicit error type returned through `Except`.
-/

namespace Crewai

/-- A Python exception, embedded as its class name plus its message
(`str(e)`). `_chunk_text` can only raise `ValueError` (from `range` with a
zero step); `EntityMemory.reset` raises a bare `Exception`. -/
structure PyExc where
  clsName : String
  msg : String
deriving Repr, DecidableEq

/-!
## Chunker: `TextFileKnowledgeSource._chunk_text`

Python source:

    def _chunk_text(self, text: str) -> List[str]:
        return [
            text[i : i + self.chunk_size]
            for i in range(0, len(text), self.chunk_size - self.chunk_overlap)
        ]

The comprehension iterates `range(0, len(text), step)` with
`step = chunk_size - chunk_overlap` (a Python int, possibly zero or
negative):

* `step = 0`: `range` raises `ValueError("range() arg 3 must not be zero")`;
* `step < 0`: `range(0, n, step)` with `n ≥ 0` is empty, so the result is `[]`;
* `step > 0`: the starts are `0, step, 2*step, …`, i.e. `i * step` for
  `i < ⌈n / step⌉ = (n + step - 1) / step` where `n = len(text)`.

The slice `text[i : i + chunk_size]` is `(text.drop i).take chunk_size`.
-/

/-- Embedding of `TextFileKnowledgeSource._chunk_text`, with `chunk_size`
and `chunk_overlap` taken from the instance configuration. -/
def chunkText (chunk_size chunk_overlap : Nat) (text : List Char) :
    Except PyExc (List (List Char)) :=
  if chunk_size = chunk_overlap then
    Except.error ⟨"ValueError", "range() arg 3 must not be zero"⟩
  else if chunk_size < chunk_overlap then
    Except.ok []
  else
    let step := chunk_size - chunk_overlap
    Except.ok <| (List.range ((text.length + step - 1) / step)).map
      fun i => (text.drop (i * step)).take chunk_size

/-- Number of chunks produced on a valid configuration. -/
def numChunks (chunk_size chunk_overlap : Nat) (n : Nat) : Nat :=
  (n + (chunk_size - chunk_overlap) - 1) / (chunk_size - chunk_overlap)

lemma chunkText_eq_ok (chunk_size chunk_overlap : Nat) (text : List Char)
    (hlt : chunk_overlap < chunk_size) :
    chunkText chunk_size chunk_overlap text =
      Except.ok ((List.range (numChunks chunk_size chunk_overlap text.length)).map
        fun i => (text.drop (i * (chunk_size - chunk_overlap))).take chunk_size) := by
  unfold chunkText numChunks
  rw [if_neg (by omega), if_neg (by omega)]

lemma numChunks_pos (chunk_size chunk_overlap n : Nat)
    (hlt : chunk_overlap < chunk_size) (hn : 0 < n) :
    0 < numChunks chunk_size chunk_overlap n := by
  unfold numChunks
  set s := chunk_size - chunk_overlap with hs
  have hs1 : 0 < s := by omega
  have : 1 * s ≤ n + s - 1 := by omega
  have := (Nat.le_div_iff_mul_le hs1).mpr this
  omega

/-- Coverage: `n ≤ numChunks * step`, the chunk windows cover the whole
text. -/
lemma le_numChunks_mul (chunk_size chunk_overlap n : Nat)
    (hlt : chunk_overlap < chunk_size) :
    n ≤ numChunks chunk_size chunk_overlap n * (chunk_size - chunk_overlap) := by
  unfold numChunks
  set s := chunk_size - chunk_overlap with hs
  have hs1 : 0 < s := by omega
  have hmod := Nat.div_add_mod (n + s - 1) s
  have hrlt : (n + s - 1) % s < s := Nat.mod_lt _ hs1
  rw [mul_comm]
  generalize hr : (n + s - 1) % s = r at hmod hrlt
  generalize hp : s * ((n + s - 1) / s) = p at hmod ⊢
  omega

/-- For non-empty text, `(numChunks - 1) * step < n`: the last start offset
lies strictly inside the text. -/
lemma pred_numChunks_mul_lt (chunk_size chunk_overlap n : Nat)
    (hlt : chunk_overlap < chunk_size) (hn : 0 < n) :
    (numChunks chunk_size chunk_overlap n - 1) * (chunk_size - chunk_overlap) < n := by
  unfold numChunks
  set s := chunk_size - chunk_overlap with hs
  have hs1 : 0 < s := by omega
  have hmod := Nat.div_add_mod (n + s - 1) s
  have hsub : ((n + s - 1) / s - 1) * s = (n + s - 1) / s * s - 1 * s := Nat.sub_mul _ _ _
  rw [hsub, one_mul, mul_comm]
  generalize hr : (n + s - 1) % s = r at hmod
  generalize hp : s * ((n + s - 1) / s) = p at hmod ⊢
  omega

/-- Every start offset produced on a valid configuration lies strictly
inside the text. -/
lemma start_lt_length (chunk_size chunk_overlap n i : Nat)
    (hlt : chunk_overlap < chunk_size)
    (hi : i < numChunks chunk_size chunk_overlap n) :
    i * (chunk_size - chunk_overlap) < n := by
  have hn : 0 < n := by
    by_contra h
    have : n = 0 := by omega
    subst this
    unfold numChunks at hi
    have : (0 + (chunk_size - chunk_overlap) - 1) / (chunk_size - chunk_overlap) = 0 := by
      apply Nat.div_eq_of_lt
      omega
    omega
  have hlast := pred_numChunks_mul_lt chunk_size chunk_overlap n hlt hn
  have : i * (chunk_size - chunk_overlap) ≤
      (numChunks chunk_size chunk_overlap n - 1) * (chunk_size - chunk_overlap) :=
    Nat.mul_le_mul_right _ (by omega)
  omega

/-- The last chunk window is truncated exactly at the text end: its start
plus its (possibly truncated) length equals the text length. -/
lemma last_chunk_closes (chunk_size chunk_overlap n : Nat)
    (hlt : chunk_overlap < chunk_size) (hn : 0 < n) :
    (numChunks chunk_size chunk_overlap n - 1) * (chunk_size - chunk_overlap) +
      min chunk_size
        (n - (numChunks chunk_size chunk_overlap n - 1) * (chunk_size - chunk_overlap)) = n := by
  have h1 := pred_numChunks_mul_lt chunk_size chunk_overlap n hlt hn
  have h2 := le_numChunks_mul chunk_size chunk_overlap n hlt
  have hNpos := numChunks_pos chunk_size chunk_overlap n hlt hn
  have h5 : (numChunks chunk_size chunk_overlap n - 1) * (chunk_size - chunk_overlap) =
      numChunks chunk_size chunk_overlap n * (chunk_size - chunk_overlap) -
        1 * (chunk_size - chunk_overlap) :=
    Nat.sub_mul _ _ _
  rw [one_mul] at h5
  have h6 : chunk_size - chunk_overlap ≤
      numChunks chunk_size chunk_overlap n * (chunk_size - chunk_overlap) :=
    Nat.le_mul_of_pos_left _ hNpos
  generalize hB : numChunks chunk_size chunk_overlap n * (chunk_size - chunk_overlap) = B
    at h2 h5 h6
  generalize hA :
    (numChunks chunk_size chunk_overlap n - 1) * (chunk_size - chunk_overlap) = A at h1 h5 ⊢
  omega

/-- C1: on a valid configuration (`chunk_size > 0`, `0 ≤ overlap <
chunk_size`, which over `Nat` is exactly `chunk_overlap < chunk_size`),
`_chunk_text` succeeds and returns the ordered chunk list in which chunk
`i` is the slice of the text starting at offset `i * (chunk_size -
chunk_overlap)` (so consecutive start offsets strictly increase by
`chunk_size - chunk_overlap`), and for non-empty text the last chunk's end
offset — its start offset plus its length — equals the text length. -/
theorem chunkText_spec_C1 (chunk_size chunk_overlap : Nat) (text : List Char)
    (hlt : chunk_overlap < chunk_size) :
    ∃ cs, chunkText chunk_size chunk_overlap text = Except.ok cs ∧
      (∀ i, (h : i < cs.length) →
        cs.get ⟨i, h⟩ = (text.drop (i * (chunk_size - chunk_overlap))).take chunk_size) ∧
      (text ≠ [] → ∃ lastChunk, cs.getLast? = some lastChunk ∧
        (cs.length - 1) * (chunk_size - chunk_overlap) + lastChunk.length = text.length) := by
  refine ⟨_, chunkText_eq_ok chunk_size chunk_overlap text hlt, ?_, ?_⟩
  · intro i h
    simp
  · intro hne
    have hn : 0 < text.length := List.length_pos.mpr hne
    have hNpos : 0 < numChunks chunk_size chunk_overlap text.length :=
      numChunks_pos chunk_size chunk_overlap text.length hlt hn
    refine ⟨(text.drop ((numChunks chunk_size chunk_overlap text.length - 1) *
      (chunk_size - chunk_overlap))).take chunk_size, ?_, ?_⟩
    · rw [List.getLast?_eq_getElem?]
      have hlen : ((List.range (numChunks chunk_size chunk_overlap text.length)).map
          fun i => (text.drop (i * (chunk_size - chunk_overlap))).take chunk_size).length =
          numChunks chunk_size chunk_overlap text.length := by simp
      rw [hlen, List.getElem?_eq_getElem (by simp; omega)]
      simp
    · simp only [List.length_map, List.length_range, List.length_take, List.length_drop]
      exact last_chunk_closes chunk_size chunk_overlap text.length hlt hn

/-- Witness for C1 at `chunk_size = 3`, `chunk_overlap = 1`,
`text = "abcde"`. -/
theorem chunkText_spec_C1_witness :
    1 < 3 ∧
    (∃ cs, chunkText 3 1 "abcde".toList = Except.ok cs ∧
      (∀ i, (h : i < cs.length) →
        cs.get ⟨i, h⟩ = ("abcde".toList.drop (i * (3 - 1))).take 3) ∧
      ("abcde".toList ≠ [] → ∃ lastChunk, cs.getLast? = some lastChunk ∧
        (cs.length - 1) * (3 - 1) + lastChunk.length = "abcde".toList.length)) :=
  ⟨by decide, chunkText_spec_C1 3 1 "abcde".toList (by decide)⟩

/-- C2 counterexample: with `chunk_size = 1 ≤ 2 = chunk_overlap` on the
text `"ab"`, `_chunk_text` does not fail at all — `range(0, 2, -1)` is
empty, so it silently returns the empty list — refuting the claim that
every call with `chunk_size ≤ overlap` fails with a `ConfigurationError`
(no such error type exists anywhere in the code). -/
theorem chunkText_C2_counterexample :
    1 ≤ 2 ∧ chunkText 1 2 "ab".toList = Except.ok [] := by
  constructor
  · decide
  · rfl

/-- C2 amended: on `chunk_size ≤ overlap` the call never loops (the
embedding is a total function, as is Python's `range`) and never returns a
zero-length chunk, but the failure mode is: `chunk_size = overlap` raises
`ValueError` (from `range` with zero step) — not a `ConfigurationError` —
while `chunk_size < overlap` silently returns the empty chunk list with no
error at all. -/
theorem chunkText_C2_amended (chunk_size chunk_overlap : Nat) (text : List Char)
    (h : chunk_size ≤ chunk_overlap) :
    (chunk_size = chunk_overlap →
      chunkText chunk_size chunk_overlap text =
        Except.error ⟨"ValueError", "range() arg 3 must not be zero"⟩) ∧
    (chunk_size < chunk_overlap →
      chunkText chunk_size chunk_overlap text = Except.ok []) ∧
    (∀ cs, chunkText chunk_size chunk_overlap text = Except.ok cs → cs = []) := by
  refine ⟨?_, ?_, ?_⟩
  · intro heq
    unfold chunkText
    rw [if_pos heq]
  · intro hlt2
    unfold chunkText
    rw [if_neg (by omega), if_pos hlt2]
  · intro cs hcs
    unfold chunkText at hcs
    by_cases heq : chunk_size = chunk_overlap
    · rw [if_pos heq] at hcs
      exact absurd hcs (by simp)
    · rw [if_neg heq, if_pos (by omega)] at hcs
      exact (Except.ok.inj hcs).symm

/-- Witness for C2 amended at `chunk_size = 1`, `chunk_overlap = 2`,
`text = "ab"`. -/
theorem chunkText_C2_amended_witness :
    1 ≤ 2 ∧
    ((1 = 2 → chunkText 1 2 "ab".toList =
        Except.error ⟨"ValueError", "range() arg 3 must not be zero"⟩) ∧
     (1 < 2 → chunkText 1 2 "ab".toList = Except.ok []) ∧
     (∀ cs, chunkText 1 2 "ab".toList = Except.ok cs → cs = [])) :=
  ⟨by decide, chunkText_C2_amended 1 2 "ab".toList (by decide)⟩

/-- C3 counterexample: with `chunk_size = 4`, `chunk_overlap = 2` on
`"abcde"`, `_chunk_text` returns three chunks, and the middle chunk —
index 1 of 3, not the last one — has length 3, not `chunk_size = 4`. This
refutes the claim that no chunk other than the last is shorter than
`chunk_size`: with a positive overlap, every chunk whose window reaches
past the text end is truncated, and several trailing windows can. -/
theorem chunkText_C3_counterexample :
    chunkText 4 2 "abcde".toList =
      Except.ok ["abcd".toList, "cde".toList, "e".toList] ∧
    "cde".toList.length ≠ 4 := by
  constructor
  · rfl
  · decide

/-- C3 amended: on a valid configuration every chunk `i` has length
exactly `min chunk_size (len(text) - i * (chunk_size - chunk_overlap))`;
in particular every chunk has length at most `chunk_size` and no chunk is
empty, but when `chunk_overlap > 0` more than one trailing chunk may be
shorter than `chunk_size` (every window that reaches past the text end is
truncated there, not only the last one). -/
theorem chunkText_C3_amended (chunk_size chunk_overlap : Nat) (text : List Char)
    (hlt : chunk_overlap < chunk_size) :
    ∃ cs, chunkText chunk_size chunk_overlap text = Except.ok cs ∧
      ∀ i, (h : i < cs.length) →
        (cs.get ⟨i, h⟩).length =
          min chunk_size (text.length - i * (chunk_size - chunk_overlap)) ∧
        (cs.get ⟨i, h⟩).length ≤ chunk_size ∧
        (cs.get ⟨i, h⟩).length ≠ 0 := by
  refine ⟨_, chunkText_eq_ok chunk_size chunk_overlap text hlt, ?_⟩
  intro i h
  have hi : i < numChunks chunk_size chunk_overlap text.length := by
    simpa using h
  have hstart := start_lt_length chunk_size chunk_overlap text.length i hlt hi
  simp only [List.get_eq_getElem, List.getElem_map, List.getElem_range,
    List.length_take, List.length_drop]
  refine ⟨trivial, ?_, ?_⟩ <;>
    · generalize hA : i * (chunk_size - chunk_overlap) = A at hstart ⊢
      omega

/-- Witness for C3 amended at `chunk_size = 4`, `chunk_overlap = 2`,
`text = "abcde"`. -/
theorem chunkText_C3_amended_witness :
    2 < 4 ∧
    (∃ cs, chunkText 4 2 "abcde".toList = Except.ok cs ∧
      ∀ i, (h : i < cs.length) →
        (cs.get ⟨i, h⟩).length = min 4 ("abcde".toList.length - i * (4 - 2)) ∧
        (cs.get ⟨i, h⟩).length ≤ 4 ∧
        (cs.get ⟨i, h⟩).length ≠ 0) :=
  ⟨by decide, chunkText_C3_amended 4 2 "abcde".toList (by decide)⟩

/-- C4: on a valid configuration, `_chunk_text` applied to the empty text
returns the empty chunk list (`range(0, 0, step)` is empty), not a list
holding one empty chunk. -/
theorem chunkText_empty_C4 (chunk_size chunk_overlap : Nat)
    (hlt : chunk_overlap < chunk_size) :
    chunkText chunk_size chunk_overlap [] = Except.ok [] := by
  rw [chunkText_eq_ok chunk_size chunk_overlap [] hlt]
  have h0 : numChunks chunk_size chunk_overlap (List.length ([] : List Char)) = 0 := by
    unfold numChunks
    exact Nat.div_eq_of_lt (by simp; omega)
  rw [h0]
  rfl

/-- Witness for C4 at `chunk_size = 10`, `chunk_overlap = 2`. -/
theorem chunkText_empty_C4_witness :
    2 < 10 ∧ chunkText 10 2 [] = Except.ok [] :=
  ⟨by decide, chunkText_empty_C4 10 2 (by decide)⟩

/-!
## Substring machinery

A decidable substring test on character lists, used to state that one
piece of text occurs literally inside another.
-/

/-- Decidable substring test: `needle` occurs contiguously in `hay`. -/
def containsSub (needle hay : List Char) : Bool :=
  (List.range (hay.length + 1)).any fun i => needle.isPrefixOf (hay.drop i)

lemma isPrefixOf_self_append (l post : List Char) : l.isPrefixOf (l ++ post) = true := by
  induction l with
  | nil => simp [List.isPrefixOf]
  | cons a t ih => simp [List.isPrefixOf, ih]

lemma isPrefixOf_append_of_isPrefixOf (l m b : List Char) (h : l.isPrefixOf m = true) :
    l.isPrefixOf (m ++ b) = true := by
  induction l generalizing m with
  | nil => simp [List.isPrefixOf]
  | cons x xs ih =>
    cases m with
    | nil => simp [List.isPrefixOf] at h
    | cons y ys =>
      simp only [List.cons_append, List.isPrefixOf, Bool.and_eq_true] at h ⊢
      exact ⟨h.1, ih ys h.2⟩

lemma drop_append_add (a b : List Char) (i : Nat) :
    (a ++ b).drop (a.length + i) = b.drop i := by
  induction a with
  | nil => simp
  | cons x xs ih =>
    have heq : xs.length + 1 + i = xs.length + i + 1 := by omega
    simp only [List.cons_append, List.length_cons, heq, List.drop_succ_cons]
    exact ih

lemma containsSub_of_append (pre needle post : List Char) :
    containsSub needle (pre ++ needle ++ post) = true := by
  unfold containsSub
  rw [List.any_eq_true]
  refine ⟨pre.length, ?_, ?_⟩
  · rw [List.mem_range]
    simp only [List.length_append]
    omega
  · have hdrop : (pre ++ needle ++ post).drop pre.length = needle ++ post := by
      rw [List.append_assoc, List.drop_left]
    rw [hdrop]
    exact isPrefixOf_self_append needle post

lemma containsSub_refl (l : List Char) : containsSub l l = true := by
  have h := containsSub_of_append [] l []
  simpa using h

lemma containsSub_append_left (needle a b : List Char)
    (h : containsSub needle a = true) : containsSub needle (a ++ b) = true := by
  unfold containsSub at h ⊢
  rw [List.any_eq_true] at h ⊢
  obtain ⟨i, hi, hp⟩ := h
  rw [List.mem_range] at hi
  refine ⟨i, ?_, ?_⟩
  · rw [List.mem_range, List.length_append]
    omega
  · rw [List.drop_append_of_le_length (by omega)]
    exact isPrefixOf_append_of_isPrefixOf _ _ _ hp

lemma containsSub_append_right (needle a b : List Char)
    (h : containsSub needle b = true) : containsSub needle (a ++ b) = true := by
  unfold containsSub at h ⊢
  rw [List.any_eq_true] at h ⊢
  obtain ⟨i, hi, hp⟩ := h
  rw [List.mem_range] at hi
  refine ⟨a.length + i, ?_, ?_⟩
  · rw [List.mem_range, List.length_append]
    omega
  · rw [drop_append_add]
    exact hp

lemma containsSub_self_append (l b : List Char) : containsSub l (l ++ b) = true := by
  have h := containsSub_of_append [] l b
  simpa using h

/-!
## Knowledge source: `TextFileKnowledgeSource.add`

Python source:

    def add(self) -> None:
        new_chunks = self._chunk_text(self.content)
        self.chunks.extend(new_chunks)
        self.save_documents(metadata=self.metadata)

The instance state carries the loaded content, the chunking configuration,
the metadata, and the accumulated chunk list; `storage_submissions` is the
log of submission calls the bound storage has received.
-/

/-- State of a `TextFileKnowledgeSource` instance together with the log of
submission calls its bound storage has received. -/
structure TextFileKnowledgeSource where
  content : List Char
  chunk_size : Nat
  chunk_overlap : Nat
  metadata : List (String × String)
  chunks : List (List Char)
  storage_submissions : List (List (List Char) × List (String × String))
deriving Repr, DecidableEq

/-- Modelled from the spec: `save_documents` is defined in the base class
`BaseFileKnowledgeSource`, which is not among the given source files. Per
the spec ("submit `(new_chunks, metadata)` to the bound storage"), one
call delivers the newly produced chunks together with the source's
metadata to the bound storage as one submission call; the embedding
records each call on the `storage_submissions` log. (In the Python code
the method receives `metadata=self.metadata` and reads the chunks from
the instance.) -/
def TextFileKnowledgeSource.save_documents (s : TextFileKnowledgeSource)
    (new_chunks : List (List Char)) : TextFileKnowledgeSource :=
  { s with storage_submissions := s.storage_submissions ++ [(new_chunks, s.metadata)] }

/-- Embedding of `TextFileKnowledgeSource.add`: chunk the content, extend
the chunk list, then call `save_documents` with the instance metadata. -/
def TextFileKnowledgeSource.add (s : TextFileKnowledgeSource) :
    Except PyExc TextFileKnowledgeSource :=
  match chunkText s.chunk_size s.chunk_overlap s.content with
  | Except.error e => Except.error e
  | Except.ok new_chunks =>
      Except.ok (TextFileKnowledgeSource.save_documents
        { s with chunks := s.chunks ++ new_chunks } new_chunks)

/-- C5: starting from a freshly constructed source (empty chunk list, no
submissions yet) with `chunk_size = 10` and `chunk_overlap = 0`, calling
`add` twice leaves exactly `2 * ⌈L / 10⌉` chunks in the source's chunk
list, with the first call's chunks kept as an untouched prefix and the
second call's appended after them, and the storage receives exactly two
separate submission calls rather than one merged call. -/
theorem textFileKnowledgeSource_add_twice_C5 (s : TextFileKnowledgeSource)
    (hcs : s.chunk_size = 10) (hov : s.chunk_overlap = 0)
    (hch : s.chunks = []) (hsub : s.storage_submissions = []) :
    ∃ cs s1 s2,
      chunkText 10 0 s.content = Except.ok cs ∧
      cs.length = (s.content.length + 9) / 10 ∧
      TextFileKnowledgeSource.add s = Except.ok s1 ∧
      TextFileKnowledgeSource.add s1 = Except.ok s2 ∧
      s1.chunks = cs ∧
      s2.chunks = cs ++ cs ∧
      s2.chunks.length = 2 * ((s.content.length + 9) / 10) ∧
      s1.storage_submissions = [(cs, s.metadata)] ∧
      s2.storage_submissions = [(cs, s.metadata), (cs, s.metadata)] := by
  have hok := chunkText_eq_ok 10 0 s.content (by omega)
  set cs := (List.range (numChunks 10 0 s.content.length)).map
    (fun i => (s.content.drop (i * (10 - 0))).take 10) with hcsdef
  have hlen : cs.length = (s.content.length + 9) / 10 := by
    rw [hcsdef]
    simp only [List.length_map, List.length_range]
    unfold numChunks
    omega
  refine ⟨cs,
    { s with chunks := cs, storage_submissions := [(cs, s.metadata)] },
    { s with chunks := cs ++ cs, storage_submissions := [(cs, s.metadata), (cs, s.metadata)] },
    hok, hlen, ?_, ?_, rfl, rfl, ?_, rfl, rfl⟩
  · unfold TextFileKnowledgeSource.add
    rw [hcs, hov, hok]
    unfold TextFileKnowledgeSource.save_documents
    rw [hch, hsub]
    rfl
  · unfold TextFileKnowledgeSource.add
    simp only [hcs, hov, hok]
    unfold TextFileKnowledgeSource.save_documents
    rfl
  · simp only [List.length_append, hlen]
    omega

/-- Witness for C5: a concrete source holding the 13-character content
string, so two calls leave `2 * ⌈13 / 10⌉ = 4` chunks. -/
theorem textFileKnowledgeSource_add_twice_C5_witness :
    ({ content := "hello world 1".toList, chunk_size := 10, chunk_overlap := 0,
       metadata := [("k", "v")], chunks := [],
       storage_submissions := [] } : TextFileKnowledgeSource).chunk_size = 10 ∧
    ({ content := "hello world 1".toList, chunk_size := 10, chunk_overlap := 0,
       metadata := [("k", "v")], chunks := [],
       storage_submissions := [] } : TextFileKnowledgeSource).chunk_overlap = 0 ∧
    ({ content := "hello world 1".toList, chunk_size := 10, chunk_overlap := 0,
       metadata := [("k", "v")], chunks := [],
       storage_submissions := [] } : TextFileKnowledgeSource).chunks = [] ∧
    ({ content := "hello world 1".toList, chunk_size := 10, chunk_overlap := 0,
       metadata := [("k", "v")], chunks := [],
       storage_submissions := [] } : TextFileKnowledgeSource).storage_submissions = [] ∧
    ∃ cs s1 s2,
      chunkText 10 0 "hello world 1".toList = Except.ok cs ∧
      cs.length = ("hello world 1".toList.length + 9) / 10 ∧
      TextFileKnowledgeSource.add
        { content := "hello world 1".toList, chunk_size := 10, chunk_overlap := 0,
          metadata := [("k", "v")], chunks := [],
          storage_submissions := [] } = Except.ok s1 ∧
      TextFileKnowledgeSource.add s1 = Except.ok s2 ∧
      s1.chunks = cs ∧
      s2.chunks = cs ++ cs ∧
      s2.chunks.length = 2 * (("hello world 1".toList.length + 9) / 10) ∧
      s1.storage_submissions = [(cs, [("k", "v")])] ∧
      s2.storage_submissions = [(cs, [("k", "v")]), (cs, [("k", "v")])] :=
  ⟨rfl, rfl, rfl, rfl,
    textFileKnowledgeSource_add_twice_C5
      { content := "hello world 1".toList, chunk_size := 10, chunk_overlap := 0,
        metadata := [("k", "v")], chunks := [], storage_submissions := [] }
      rfl rfl rfl rfl⟩

/-!
## Entity memory: `EntityMemory` from `entity_memory.py`

The constructor reads `crew.memory_config["provider"]`; with provider
`"mem0"` it binds a fresh `Mem0Storage(type="entities", crew=crew)`,
ignoring any caller-supplied storage, otherwise it binds the caller's
storage when one was passed and a fresh
`RAGStorage(type="entities", allow_reset=False, embedder_config=...,
crew=crew)` when not. `save` formats the record according to the same
provider flag and delegates to the generic `Memory.save(data,
item.metadata)`; `reset` delegates to `storage.reset()` and wraps any
exception in a generic `Exception` naming the entity memory.
-/

/-- The part of a crew the constructor reads:
`crew.memory_config["provider"]`. -/
structure Crew where
  memory_provider : String
deriving Repr, DecidableEq

/-- An `EntityMemoryItem` record: `{name, type, description, metadata}`. -/
structure EntityMemoryItem where
  name : String
  type : String
  description : String
  metadata : List (String × String)
deriving Repr, DecidableEq

/-- A storage object an `EntityMemory` may end up bound to: a
`Mem0Storage(type=..., crew=...)`, a `RAGStorage(type=..., allow_reset=...,
embedder_config=..., crew=...)`, or some other caller-supplied storage
object (the Python parameter is untyped). -/
inductive Storage where
  | mem0 (ty : String) (crew : Crew)
  | rag (ty : String) (allow_reset : Bool)
      (embedder_config : Option (List (String × String))) (crew : Crew)
  | custom (id : Nat)
deriving Repr, DecidableEq

/-- Whether a storage object is the remote `Mem0Storage` variant. -/
def Storage.isMem0 : Storage → Bool
  | Storage.mem0 _ _ => true
  | _ => false

/-- The state `EntityMemory.__init__` leaves behind: the provider flag
read from the crew configuration and the bound storage
(`super().__init__(storage)` stores the selected storage). -/
structure EntityMemory where
  memory_provider : String
  storage : Storage
deriving Repr, DecidableEq

/-- Embedding of `EntityMemory.__init__`. The `storage` argument is
`none` when the caller passed no storage (Python default `None`). -/
def EntityMemory.init (crew : Crew)
    (embedder_config : Option (List (String × String)))
    (storage : Option Storage) : EntityMemory :=
  let memory_provider := crew.memory_provider
  if memory_provider = "mem0" then
    { memory_provider := memory_provider, storage := Storage.mem0 "entities" crew }
  else
    { memory_provider := memory_provider,
      storage :=
        match storage with
        | some s => s
        | none => Storage.rag "entities" false embedder_config crew }

/-- Embedding of `EntityMemory.save`. The generic `Memory.save` it
delegates to is outside the given source files; the embedding returns the
pair `(data, item.metadata)` handed to `super().save`, which is exactly
what the claims are about. The `"mem0"` branch is the triple-quoted
f-string from the source, with its leading newline and 12-space
indentation. -/
def EntityMemory.save (m : EntityMemory) (item : EntityMemoryItem) :
    String × List (String × String) :=
  let data :=
    if m.memory_provider = "mem0" then
      "\n            Remember details about the following entity:\n            Name: "
        ++ item.name
        ++ "\n            Type: " ++ item.type
        ++ "\n            Entity Description: " ++ item.description
        ++ "\n            "
    else
      item.name ++ "(" ++ item.type ++ "): " ++ item.description
  (data, item.metadata)

/-- Embedding of `EntityMemory.reset`. The bound storage's own `reset` is
outside the given source files, so its outcome is the parameter: `ok` when
`self.storage.reset()` returns, `error e` when it raises the exception
`e`. The method re-raises a bare `Exception` built with an f-string
around `str(e)`. -/
def EntityMemory.reset (storageResult : Except PyExc Unit) : Except PyExc Unit :=
  match storageResult with
  | Except.ok _ => Except.ok ()
  | Except.error e =>
      Except.error ⟨"Exception",
        "An error occurred while resetting the entity memory: " ++ e.msg⟩

lemma toList_append (a b : String) : (a ++ b).toList = a.toList ++ b.toList := by
  simp [String.toList, String.data_append]

/-- A crew configured with a provider other than "mem0". -/
def plainCrew : Crew := { memory_provider := "local" }

/-- A crew configured with provider "mem0". -/
def mem0Crew : Crew := { memory_provider := "mem0" }

/-- Entity memory constructed from the non-"mem0" crew with no caller
storage. -/
def localEntityMemory : EntityMemory := EntityMemory.init plainCrew none none

/-- Entity memory constructed from the "mem0" crew with no caller
storage. -/
def mem0EntityMemory : EntityMemory := EntityMemory.init mem0Crew none none

/-- The Alice record used by the spec's examples. -/
def aliceItem : EntityMemoryItem :=
  { name := "Alice", type := "Person", description := "engineer",
    metadata := [("k", "v")] }

/-- C6: with a provider other than "mem0" selected at construction, `save`
hands the generic memory save exactly the single-line string
`name(type): description` built from the record's fields, together with
the record's metadata. -/
theorem entityMemory_save_local_C6 (m : EntityMemory) (item : EntityMemoryItem)
    (h : m.memory_provider ≠ "mem0") :
    EntityMemory.save m item =
      (item.name ++ "(" ++ item.type ++ "): " ++ item.description, item.metadata) := by
  simp [EntityMemory.save, h]

/-- Witness for C6 at the Alice record: the text handed over is exactly
the string from the spec. -/
theorem entityMemory_save_local_C6_witness :
    localEntityMemory.memory_provider ≠ "mem0" ∧
    EntityMemory.save localEntityMemory aliceItem =
      ("Alice(Person): engineer", [("k", "v")]) :=
  ⟨by decide, entityMemory_save_local_C6 localEntityMemory aliceItem (by decide)⟩

/-- C7: with provider "mem0" selected at construction, the text handed to
the generic memory save is exactly the multi-line f-string from the
source — a header line containing "Remember details" followed by one line
each holding the record's name, type and description, every field value
separated from the surrounding template by newlines — and in particular
the name, the type, the description and the header phrase each occur
literally inside the text. -/
theorem entityMemory_save_mem0_C7 (m : EntityMemory) (item : EntityMemoryItem)
    (h : m.memory_provider = "mem0") :
    (EntityMemory.save m item).1 =
      "\n            Remember details about the following entity:\n            Name: "
        ++ item.name ++ "\n            Type: " ++ item.type
        ++ "\n            Entity Description: " ++ item.description
        ++ "\n            " ∧
    containsSub "Remember details".toList (EntityMemory.save m item).1.toList = true ∧
    containsSub item.name.toList (EntityMemory.save m item).1.toList = true ∧
    containsSub item.type.toList (EntityMemory.save m item).1.toList = true ∧
    containsSub item.description.toList (EntityMemory.save m item).1.toList = true := by
  have hdata : (EntityMemory.save m item).1 =
      "\n            Remember details about the following entity:\n            Name: "
        ++ item.name ++ "\n            Type: " ++ item.type
        ++ "\n            Entity Description: " ++ item.description
        ++ "\n            " := by
    simp [EntityMemory.save, h]
  have htl : (EntityMemory.save m item).1.toList =
      "\n            Remember details about the following entity:\n            Name: ".toList
        ++ (item.name.toList
        ++ ("\n            Type: ".toList
        ++ (item.type.toList
        ++ ("\n            Entity Description: ".toList
        ++ (item.description.toList
        ++ "\n            ".toList))))) := by
    rw [hdata]
    simp [toList_append, List.append_assoc]
  refine ⟨hdata, ?_, ?_, ?_, ?_⟩
  · rw [htl]
    apply containsSub_append_left
    decide
  · rw [htl]
    exact containsSub_append_right _ _ _ (containsSub_self_append _ _)
  · rw [htl]
    exact containsSub_append_right _ _ _ (containsSub_append_right _ _ _
      (containsSub_append_right _ _ _ (containsSub_self_append _ _)))
  · rw [htl]
    exact containsSub_append_right _ _ _ (containsSub_append_right _ _ _
      (containsSub_append_right _ _ _ (containsSub_append_right _ _ _
        (containsSub_append_right _ _ _ (containsSub_self_append _ _)))))

/-- Witness for C7 at the Alice record under the "mem0" provider. -/
theorem entityMemory_save_mem0_C7_witness :
    mem0EntityMemory.memory_provider = "mem0" ∧
    ((EntityMemory.save mem0EntityMemory aliceItem).1 =
      "\n            Remember details about the following entity:\n            Name: "
        ++ aliceItem.name ++ "\n            Type: " ++ aliceItem.type
        ++ "\n            Entity Description: " ++ aliceItem.description
        ++ "\n            " ∧
    containsSub "Remember details".toList
      (EntityMemory.save mem0EntityMemory aliceItem).1.toList = true ∧
    containsSub aliceItem.name.toList
      (EntityMemory.save mem0EntityMemory aliceItem).1.toList = true ∧
    containsSub aliceItem.type.toList
      (EntityMemory.save mem0EntityMemory aliceItem).1.toList = true ∧
    containsSub aliceItem.description.toList
      (EntityMemory.save mem0EntityMemory aliceItem).1.toList = true) :=
  ⟨by decide, entityMemory_save_mem0_C7 mem0EntityMemory aliceItem (by decide)⟩

/-- C8: when the bound storage's reset returns, `EntityMemory.reset`
returns normally; when it raises any exception, `EntityMemory.reset`
raises a bare `Exception` — not the backend's own exception type — whose
message names the memory kind ("entity memory") and embeds the underlying
failure's message. -/
theorem entityMemory_reset_C8 (e : PyExc) :
    EntityMemory.reset (Except.ok ()) = Except.ok () ∧
    EntityMemory.reset (Except.error e) =
      Except.error ⟨"Exception",
        "An error occurred while resetting the entity memory: " ++ e.msg⟩ ∧
    containsSub "entity memory".toList
      ("An error occurred while resetting the entity memory: " ++ e.msg).toList = true ∧
    containsSub e.msg.toList
      ("An error occurred while resetting the entity memory: " ++ e.msg).toList = true := by
  refine ⟨rfl, rfl, ?_, ?_⟩
  · rw [toList_append]
    apply containsSub_append_left
    decide
  · rw [toList_append]
    exact containsSub_append_right _ _ _ (containsSub_refl _)

/-- C9 counterexample: with provider "local" and an explicitly passed
`Mem0Storage`, the constructor binds the remote storage variant, yet
`save` — branching on the provider flag, not on the bound storage — uses
the local `name(type): description` format with no "Remember details"
header. So the remote format is not used "if and only if the remote
backend was bound", and a non-"mem0" provider does not always yield the
local store. -/
theorem entityMemory_C9_counterexample :
    plainCrew.memory_provider ≠ "mem0" ∧
    ((EntityMemory.init plainCrew none
        (some (Storage.mem0 "entities" plainCrew))).storage).isMem0 = true ∧
    (EntityMemory.save
        (EntityMemory.init plainCrew none (some (Storage.mem0 "entities" plainCrew)))
        aliceItem).1 = "Alice(Person): engineer" ∧
    containsSub "Remember details".toList
      (EntityMemory.save
        (EntityMemory.init plainCrew none (some (Storage.mem0 "entities" plainCrew)))
        aliceItem).1.toList = false := by
  refine ⟨by decide, by decide, by decide, by decide⟩

/-- C9 amended: storage selection and formatting are both driven by the
provider flag read at construction — "mem0" always binds a fresh
`Mem0Storage` and always formats with the "Remember details" template,
while any other provider formats as `name(type): description` and binds
the caller-supplied storage when one is passed, else a fresh local
`RAGStorage`; when no caller storage is supplied the remote format is used
exactly when the remote backend is bound, but a caller-supplied storage
under a non-"mem0" provider may itself be the remote variant, composing a
remote backend with the local format. -/
theorem entityMemory_C9_amended (crew : Crew)
    (embedder_config : Option (List (String × String))) (arg : Option Storage)
    (item : EntityMemoryItem) :
    (EntityMemory.init crew embedder_config arg).memory_provider = crew.memory_provider ∧
    (crew.memory_provider = "mem0" →
      (EntityMemory.init crew embedder_config arg).storage = Storage.mem0 "entities" crew) ∧
    (crew.memory_provider ≠ "mem0" →
      (EntityMemory.init crew embedder_config arg).storage =
        arg.getD (Storage.rag "entities" false embedder_config crew)) ∧
    (crew.memory_provider = "mem0" →
      (EntityMemory.save (EntityMemory.init crew embedder_config arg) item).1 =
        "\n            Remember details about the following entity:\n            Name: "
          ++ item.name ++ "\n            Type: " ++ item.type
          ++ "\n            Entity Description: " ++ item.description
          ++ "\n            ") ∧
    (crew.memory_provider ≠ "mem0" →
      (EntityMemory.save (EntityMemory.init crew embedder_config arg) item).1 =
        item.name ++ "(" ++ item.type ++ "): " ++ item.description) ∧
    (arg = none →
      (((EntityMemory.init crew embedder_config arg).storage).isMem0 = true ↔
        crew.memory_provider = "mem0")) := by
  by_cases hp : crew.memory_provider = "mem0" <;> cases arg <;>
    simp [EntityMemory.init, EntityMemory.save, Storage.isMem0, hp]

/-- C10: with provider "mem0" an explicitly passed storage is silently
ignored and replaced by a newly constructed
`Mem0Storage(type="entities", crew=crew)`; with any other provider the
explicitly passed storage is bound as-is. -/
theorem entityMemory_C10 (crew : Crew)
    (embedder_config : Option (List (String × String))) (s : Storage) :
    (crew.memory_provider = "mem0" →
      (EntityMemory.init crew embedder_config (some s)).storage =
        Storage.mem0 "entities" crew) ∧
    (crew.memory_provider ≠ "mem0" →
      (EntityMemory.init crew embedder_config (some s)).storage = s) := by
  by_cases hp : crew.memory_provider = "mem0" <;> simp [EntityMemory.init, hp]

end Crewai
